import Mathlib

/-!
# OpenZWave, Windows log writer (`cpp/src/platform/windows/LogImpl.cpp`)

A shallow embedding of `LogImpl` and of the part of the C runtime it calls,
followed by the properties of the log-write pipeline.

Conventions of the embedding:

* a C string is a Lean `String`; one `Char` stands for one `char`;
* the file system is a map from paths to contents, a `FILE*` is the path the
  stream is attached to; whether a path can be opened is given by the runtime,
  and writing to an open stream succeeds;
* the console is the chronological list of the calls made on it, together with
  the text attribute currently in force;
* blocks are delimited as the braces of the source pair, also where the
  indentation suggests another nesting (see `LogImpl.Write`);
* what the source takes from headers that are not part of the translation unit
  (`TimeStamp`, `GetLogLevelString`, the expansion of a `printf` template) is a
  parameter of the definitions.
-/

namespace OpenZWave.Internal.Platform

/-! ## Console attributes (`wincon.h`) -/

/-- Windows console attribute `FOREGROUND_BLUE` (`0x0001`). -/
def FOREGROUND_BLUE : Nat := 1

/-- Windows console attribute `FOREGROUND_GREEN` (`0x0002`). -/
def FOREGROUND_GREEN : Nat := 2

/-- Windows console attribute `FOREGROUND_RED` (`0x0004`). -/
def FOREGROUND_RED : Nat := 4

/-- Windows console attribute `FOREGROUND_INTENSITY` (`0x0008`). -/
def FOREGROUND_INTENSITY : Nat := 8

/-! ## Severity levels -/

/-- Modelled from the spec: the `LogLevel` enumeration is declared in a header
that is not among the sources. The eight named levels are the ones
`toEscapeCode` switches on; `unrecognized raw` is any other value of the
underlying integer type, which the `switch` sends to its `default` label. -/
inductive LogLevel where
  | LogLevel_Debug
  | LogLevel_Detail
  | LogLevel_Info
  | LogLevel_Alert
  | LogLevel_Warning
  | LogLevel_Error
  | LogLevel_Fatal
  | LogLevel_Always
  | unrecognized (raw : Nat)
  deriving DecidableEq, Repr

open LogLevel

/-- Source `LogImpl::toEscapeCode`: the console attribute of a level. -/
def toEscapeCode (_level : LogLevel) : Nat :=
  match _level with
  | LogLevel_Debug =>
      FOREGROUND_RED ||| FOREGROUND_GREEN ||| FOREGROUND_BLUE ||| FOREGROUND_INTENSITY
  | LogLevel_Detail =>
      FOREGROUND_RED ||| FOREGROUND_GREEN ||| FOREGROUND_BLUE ||| FOREGROUND_INTENSITY
  | LogLevel_Info => FOREGROUND_RED ||| FOREGROUND_GREEN ||| FOREGROUND_BLUE
  | LogLevel_Alert => FOREGROUND_RED ||| FOREGROUND_GREEN
  | LogLevel_Warning => FOREGROUND_RED ||| FOREGROUND_GREEN
  | LogLevel_Error => FOREGROUND_RED
  | LogLevel_Fatal => FOREGROUND_RED ||| FOREGROUND_INTENSITY
  | LogLevel_Always => FOREGROUND_GREEN
  | unrecognized _ => FOREGROUND_RED ||| FOREGROUND_GREEN ||| FOREGROUND_BLUE

/-! ## Bounded formatting (C runtime) -/

/-- C99 `snprintf`/`vsnprintf` into a buffer of `size` bytes, given the full
expansion of the template: at most `size - 1` characters are stored, followed
by the terminator, so the buffer reads back as that prefix. -/
def vsnprintf (size : Nat) (expansion : String) : String :=
  ⟨expansion.data.take (size - 1)⟩

/-- The `printf` conversion `%03d` of a non-negative integer: its decimal
digits, padded on the left with `0` up to a minimum width of three. -/
def fmt03d (n : Nat) : String :=
  let digits := Nat.toDigits 10 n
  ⟨List.replicate (3 - digits.length) '0' ++ digits⟩

/-- Source `LogImpl::GetNodeString`: the device tag of a node id (`uint8`). -/
def GetNodeString (_nodeId : Nat) : String :=
  if _nodeId = 0 then
    ""
  else if _nodeId = 255 then
    "contrlr, "
  else
    vsnprintf 20 ("Node" ++ fmt03d _nodeId ++ ", ")

/-- The wording of the specification for the numeric part of a device tag:
`id` written in decimal with exactly three digits. -/
def zeroPad3 (id : Nat) : String :=
  ⟨[Nat.digitChar (id / 100), Nat.digitChar (id / 10 % 10), Nat.digitChar (id % 10)]⟩

/-! ## Files and console -/

/-- The file system: the content of every file that exists, as text streams
read and write it. -/
abbrev Files := String → Option String

/-- The content of a file, empty when the file does not exist yet. -/
def content (files : Files) (path : String) : String :=
  (files path).getD ""

/-- One call made on the console. -/
inductive ConsoleCall where
  | SetConsoleTextAttribute (attr : Nat)
  | printf (text : String)
  deriving DecidableEq, Repr

/-- What the log writer can observe and change outside itself. -/
structure World where
  /-- The file system. -/
  files : Files
  /-- The calls made on the console so far, oldest first. -/
  console : List ConsoleCall
  /-- The console text attribute currently in force. -/
  textAttribute : Nat

/-- The two ways the translation unit is compiled (`#ifdef MINGW`). -/
inductive Toolchain where
  | MINGW
  | MSVC
  deriving DecidableEq, Repr

/-- What `LogImpl.cpp` takes from outside the translation unit. -/
structure Runtime (Args : Type) where
  /-- Whether `MINGW` is defined. -/
  toolchain : Toolchain
  /-- The value of `errno` after `fopen` on a path; `0` when the file can be
  opened. -/
  fopenErrno : String → Nat
  /-- Whether the invalid-parameter handler of the Microsoft C runtime returns
  to its caller; the default handler terminates the process. -/
  invalidParameterHandlerReturns : Bool
  /-- The member `GetLogLevelString`, declared in `LogImpl.h`. -/
  GetLogLevelString : LogLevel → String
  /-- The full expansion of a `printf` template applied to its arguments. -/
  expand : String → Args → String

/-- C `fopen` with mode `"a"` or `"w"`: when the file can be opened, `"w"`
creates it or empties it and `"a"` creates it when absent; the stream is
positioned at the end of the file. -/
def fopen {Args : Type} (rt : Runtime Args) (files : Files) (filename mode : String) :
    Option String × Files :=
  if rt.fopenErrno filename = 0 then
    if mode = "a" then
      (some filename, fun q => if q = filename then some (content files q) else files q)
    else
      (some filename, fun q => if q = filename then some "" else files q)
  else
    (none, files)

/-- Source `fopen_s` (defined in the source under `MINGW`, the C runtime
function of the same contract otherwise): the error code, `0` on success, and
the stream. Every caller passes the address of a local, so the `EINVAL` branch
for a null `pFile` is not reachable. -/
def fopen_s {Args : Type} (rt : Runtime Args) (files : Files) (filename mode : String) :
    Nat × Option String × Files :=
  match fopen rt files filename mode with
  | (none, files) => (rt.fopenErrno filename, none, files)
  | (some pFile, files) => (0, some pFile, files)

/-- C `fprintf` on a stream positioned at the end of its file, given the
expanded text. -/
def fprintf (files : Files) (pFile : String) (text : String) : Files :=
  fun q => if q = pFile then some (content files q ++ text) else files q

/-- C `fclose`: the content written is kept. -/
def fclose (files : Files) (_pFile : String) : Files :=
  files

/-- Win32 `SetConsoleTextAttribute` on the standard output handle. -/
def SetConsoleTextAttribute (w : World) (attr : Nat) : World :=
  { w with console := w.console ++ [ConsoleCall.SetConsoleTextAttribute attr],
           textAttribute := attr }

/-- C `printf`, given the expanded text. -/
def printf (w : World) (text : String) : World :=
  { w with console := w.console ++ [ConsoleCall.printf text] }

/-! ## Message formatting -/

/-- Source `strcpy_s(DEST, NUM, SOURCE)` (`strncpy(DEST, SOURCE, NUM)` under
`MINGW`) for a source shorter than the buffer: the buffer reads back as the
source. The only call site passes the empty string. -/
def strcpy_s (_size : Nat) (source : String) : String :=
  source

/-- Source `vsprintf_s(buffer, size, format, args)`, given the full expansion.
Under `MINGW` it is the macro for `vsnprintf`, which truncates. Otherwise it is
the Microsoft C runtime function: an expansion that does not fit with its
terminator empties the buffer and invokes the invalid-parameter handler; the
call returns only if the handler does. `none` stands for the process being
terminated inside the call. -/
def vsprintf_s {Args : Type} (rt : Runtime Args) (size : Nat) (expansion : String) :
    Option String :=
  match rt.toolchain with
  | Toolchain.MINGW => some (vsnprintf size expansion)
  | Toolchain.MSVC =>
    if expansion.length < size then
      some expansion
    else if rt.invalidParameterHandlerReturns then
      some ""
    else
      none

/-- Source `LogImpl::Write`, lines 170-178: the content of `lineBuf`, the
message body. `_format` is `none` for a null pointer. -/
def lineBuf {Args : Type} (rt : Runtime Args) (_format : Option String) (_args : Args) :
    Option String :=
  match _format with
  | none => some (strcpy_s 1024 "")
  | some format =>
    if format = "" then
      some (strcpy_s 1024 "")
    else
      vsprintf_s rt 1024 (rt.expand format _args)

/-! ## The log writer -/

/-- The data members of `LogImpl`. -/
structure LogImpl where
  /-- Name of the log file. -/
  m_filename : String
  /-- True to provide a copy of the output to the console. -/
  m_bConsoleOutput : Bool
  /-- True to append to (and not overwrite) any existing log. -/
  m_bAppendLog : Bool
  deriving DecidableEq, Repr

/-- Source constructor `LogImpl::LogImpl`. `timeStr` is the time stamp the
banner prints. -/
def LogImpl.new {Args : Type} (rt : Runtime Args) (timeStr : String) (_filename : String)
    (_bAppendLog _bConsoleOutput : Bool) (w : World) : LogImpl × World :=
  let self : LogImpl :=
    { m_filename := _filename, m_bConsoleOutput := _bConsoleOutput,
      m_bAppendLog := _bAppendLog }
  let accessType := if self.m_bAppendLog then "a" else "w"
  if _filename ≠ "" then
    match fopen_s rt w.files _filename accessType with
    | (0, some pFile, files) =>
      let files := fprintf files pFile ("\nLogging started " ++ timeStr ++ "\n\n")
      (self, { w with files := fclose files pFile })
    | (_, _, files) => (self, { w with files := files })
  else
    (self, w)

/-- Source `LogImpl::ReopenLogFile`: empty. -/
def LogImpl.ReopenLogFile (_self : LogImpl) (w : World) : World :=
  w

/-- Source `LogImpl::Write`. `now` is the text of the `TimeStamp` taken on
entry; `none` stands for the process being terminated while formatting.

The braces of lines 180-197 do not balance: the `}` of line 190, indented as
the end of `if (!m_filename.empty())`, closes the `fopen_s` block of line 184,
so the console block of lines 191-196 lies inside the file-name guard, which
the `}` of line 197 closes, and the brace that would end the function is
missing. The embedding follows the braces as they pair and takes the function
to end after line 197. -/
def LogImpl.Write {Args : Type} (rt : Runtime Args) (self : LogImpl) (now : String)
    (_logLevel : LogLevel) (_nodeId : Nat) (_format : Option String) (_args : Args)
    (w : World) : Option World :=
  let nodeStr := GetNodeString _nodeId
  let logLevelStr := rt.GetLogLevelString _logLevel
  match lineBuf rt _format _args with
  | none => none
  | some lineBuf =>
    if self.m_filename ≠ "" then
      let w :=
        match fopen_s rt w.files self.m_filename "a" with
        | (0, some pFile, files) =>
          let files := fprintf files pFile (now ++ logLevelStr ++ nodeStr ++ lineBuf ++ "\n")
          { w with files := fclose files pFile }
        | (_, _, files) => { w with files := files }
      if self.m_bConsoleOutput then
        let w := SetConsoleTextAttribute w (toEscapeCode _logLevel)
        let w := printf w (now ++ logLevelStr ++ nodeStr ++ lineBuf ++ "\n")
        some (SetConsoleTextAttribute w (FOREGROUND_RED ||| FOREGROUND_GREEN ||| FOREGROUND_BLUE))
      else
        some w
    else
      some w

/-- Source `LogImpl::SetLogFileName`. -/
def LogImpl.SetLogFileName (self : LogImpl) (_filename : String) (w : World) :
    LogImpl × World :=
  ({ self with m_filename := _filename }, w)

/-- One call on a writer that keeps its file name. -/
inductive Call (Args : Type) where
  | Write (now : String) (_logLevel : LogLevel) (_nodeId : Nat) (_format : Option String)
      (_args : Args)
  | ReopenLogFile

/-- A sequence of calls on a writer, in order; when a call terminates the
process the remaining calls do not run. -/
def LogImpl.run {Args : Type} (rt : Runtime Args) (self : LogImpl) :
    List (Call Args) → World → World
  | [], w => w
  | Call.Write now level nodeId format args :: rest, w =>
    match self.Write rt now level nodeId format args w with
    | none => w
    | some w => self.run rt rest w
  | Call.ReopenLogFile :: rest, w => self.run rt rest (self.ReopenLogFile w)

/-! ## Sample inputs -/

/-- Modelled from the spec: `GetLogLevelString` is declared in `LogImpl.h` and
defined nowhere in the sources. Section 4.2 gives every level a short fixed
label, the name of the level followed by a comma and a blank (`"Error, "`,
`"Warning, "`, `"Info, "`), and a safe default for an unrecognized level. -/
def levelLabel : LogLevel → String
  | LogLevel_Debug => "Debug, "
  | LogLevel_Detail => "Detail, "
  | LogLevel_Info => "Info, "
  | LogLevel_Alert => "Alert, "
  | LogLevel_Warning => "Warning, "
  | LogLevel_Error => "Error, "
  | LogLevel_Fatal => "Fatal, "
  | LogLevel_Always => "Always, "
  | unrecognized _ => "Unknown, "

/-- The expansion of a template that has no conversion specification: the
template itself, whatever the arguments. -/
def expandPlain (format : String) (_args : List String) : String :=
  format

/-- A runtime in which every file can be opened. -/
def sampleRuntime (toolchain : Toolchain) (handlerReturns : Bool) : Runtime (List String) :=
  { toolchain := toolchain
    fopenErrno := fun _ => 0
    invalidParameterHandlerReturns := handlerReturns
    GetLogLevelString := levelLabel
    expand := expandPlain }

/-- An empty directory and a console that has received no call yet and whose
attribute is bright red (`0x0C`). -/
def sampleWorld : World :=
  { files := fun _ => none, console := [], textAttribute := 12 }

/-- A directory that holds `log.txt` from an earlier run. -/
def usedWorld : World :=
  { files := fun q => if q = "log.txt" then some "old\n" else none,
    console := [], textAttribute := 12 }

/-- The text of a time stamp. -/
def sampleTime : String :=
  "2010-06-01 12:00:00.000 "

/-- A template of 1030 characters without conversion specification. -/
def longTemplate : String :=
  ⟨List.replicate 1030 'x'⟩


/-! ## Auxiliary facts -/

set_option maxRecDepth 100000 in
/-- The decimal rendering by `%03d` of an 8-bit value has exactly the three
digits the specification names. -/
theorem fmt03d_eq_zeroPad3 : ∀ id, id < 256 → fmt03d id = zeroPad3 id := by
  decide

/-- The long template has 1030 characters. -/
theorem longTemplate_length : longTemplate.length = 1030 :=
  List.length_replicate 1030 'x'

/-- The long template is not the empty template. -/
theorem longTemplate_ne_empty : longTemplate ≠ "" := by
  intro h
  have hlen : longTemplate.length = ("" : String).length := congrArg String.length h
  rw [longTemplate_length] at hlen
  exact absurd hlen (by decide)

/-- Without `MINGW` and under the default handler, formatting the long template
does not return. -/
theorem lineBuf_long_MSVC_default :
    lineBuf (sampleRuntime Toolchain.MSVC false) (some longTemplate) [] = none := by
  have hlen : (expandPlain longTemplate []).length = 1030 := longTemplate_length
  simp [lineBuf, longTemplate_ne_empty, vsprintf_s, sampleRuntime, hlen]

/-- Without `MINGW` and under a handler that returns, formatting the long
template leaves an empty body. -/
theorem lineBuf_long_MSVC_returning :
    lineBuf (sampleRuntime Toolchain.MSVC true) (some longTemplate) [] = some "" := by
  have hlen : (expandPlain longTemplate []).length = 1030 := longTemplate_length
  simp [lineBuf, longTemplate_ne_empty, vsprintf_s, sampleRuntime, hlen]

/-- With `MINGW`, formatting the long template leaves its first 1023
characters. -/
theorem lineBuf_long_MINGW :
    lineBuf (sampleRuntime Toolchain.MINGW false) (some longTemplate) [] =
      some ⟨(expandPlain longTemplate []).data.take 1023⟩ := by
  simp [lineBuf, longTemplate_ne_empty, vsprintf_s, sampleRuntime, vsnprintf]

/-- The message body on every build: it has at most 1023 characters, it is
empty for a null or empty template and the full expansion when that has fewer
than 1024 characters; with `MINGW` a longer expansion is cut to its first 1023
characters. -/
theorem lineBuf_cases {Args : Type} (rt : Runtime Args) (fmt : Option String)
    (args : Args) :
    (∀ body, lineBuf rt fmt args = some body → body.length ≤ 1023) ∧
    (fmt = none ∨ fmt = some "" → lineBuf rt fmt args = some "") ∧
    (∀ format, fmt = some format → format ≠ "" →
      (rt.expand format args).length < 1024 →
      lineBuf rt fmt args = some (rt.expand format args)) ∧
    (∀ format, fmt = some format → format ≠ "" →
      1024 ≤ (rt.expand format args).length → rt.toolchain = Toolchain.MINGW →
      lineBuf rt fmt args = some ⟨(rt.expand format args).data.take 1023⟩ ∧
      (String.mk ((rt.expand format args).data.take 1023)).length = 1023) := by
  refine ⟨?_, ?_, ?_, ?_⟩
  · intro body hbody
    cases fmt with
    | none =>
      simp only [lineBuf, strcpy_s, Option.some.injEq] at hbody
      subst hbody
      decide
    | some format =>
      by_cases hf : format = ""
      · simp only [lineBuf, hf, if_true, strcpy_s, Option.some.injEq] at hbody
        subst hbody
        decide
      · simp only [lineBuf, hf, if_false, vsprintf_s] at hbody
        cases htc : rt.toolchain with
        | MINGW =>
          simp only [htc, Option.some.injEq, vsnprintf] at hbody
          subst hbody
          simp only [String.length, List.length_take]
          omega
        | MSVC =>
          simp only [htc] at hbody
          split at hbody
          · simp only [Option.some.injEq] at hbody
            subst hbody
            omega
          · split at hbody
            · simp only [Option.some.injEq] at hbody
              subst hbody
              decide
            · cases hbody
  · rintro (h | h) <;> subst h <;> simp [lineBuf, strcpy_s]
  · intro format hfmt hf hlen
    subst hfmt
    simp only [lineBuf, hf, if_false, vsprintf_s]
    cases htc : rt.toolchain with
    | MINGW =>
      simp only [vsnprintf, Option.some.injEq]
      have htake : (rt.expand format args).data.take (1024 - 1) =
          (rt.expand format args).data := by
        apply List.take_of_length_le
        have : (rt.expand format args).data.length = (rt.expand format args).length := rfl
        omega
      rw [htake]
    | MSVC => simp [hlen]
  · intro format hfmt hf hlen htc
    subst hfmt
    refine ⟨?_, ?_⟩
    · simp [lineBuf, hf, vsprintf_s, htc, vsnprintf]
    · have : (rt.expand format args).data.length = (rt.expand format args).length := rfl
      simp only [String.length, List.length_take]
      omega

/-- A `Write` whose formatting step returns `body` completes; its effect on the
files, on the console and on the text attribute. The console is reached only
with a non-empty file name. -/
theorem Write_some {Args : Type} (rt : Runtime Args) (self : LogImpl) (now : String)
    (level : LogLevel) (id : Nat) (fmt : Option String) (args : Args) (body : String)
    (w : World) (hbody : lineBuf rt fmt args = some body) :
    ∃ w1, self.Write rt now level id fmt args w = some w1 ∧
      w1.files =
        (if self.m_filename ≠ "" ∧ rt.fopenErrno self.m_filename = 0 then
          fun q => if q = self.m_filename then
            some (content w.files q ++
              (now ++ rt.GetLogLevelString level ++ GetNodeString id ++ body ++ "\n"))
            else w.files q
        else w.files) ∧
      w1.console =
        (if self.m_filename ≠ "" ∧ self.m_bConsoleOutput = true then
          w.console ++
            [ConsoleCall.SetConsoleTextAttribute (toEscapeCode level),
             ConsoleCall.printf
               (now ++ rt.GetLogLevelString level ++ GetNodeString id ++ body ++ "\n"),
             ConsoleCall.SetConsoleTextAttribute
               (FOREGROUND_RED ||| FOREGROUND_GREEN ||| FOREGROUND_BLUE)]
        else w.console) ∧
      w1.textAttribute =
        (if self.m_filename ≠ "" ∧ self.m_bConsoleOutput = true then
          FOREGROUND_RED ||| FOREGROUND_GREEN ||| FOREGROUND_BLUE
        else w.textAttribute) := by
  unfold LogImpl.Write
  simp only [hbody]
  by_cases hname : self.m_filename = ""
  · simp [hname]
  · by_cases hopen : rt.fopenErrno self.m_filename = 0
    · cases hcon : self.m_bConsoleOutput <;>
        simp [hname, hopen, fopen_s, fopen, fclose, SetConsoleTextAttribute, printf] <;>
        funext q <;> by_cases hq : q = self.m_filename <;> simp [fprintf, content, hq]
    · cases hcon : self.m_bConsoleOutput <;>
        simp [hname, hopen, fopen_s, fopen, fprintf, fclose, content,
          SetConsoleTextAttribute, printf]

/-- A `Write` that completes has a message body. -/
theorem lineBuf_of_Write {Args : Type} (rt : Runtime Args) (self : LogImpl) (now : String)
    (level : LogLevel) (id : Nat) (fmt : Option String) (args : Args) (w w1 : World)
    (hW : self.Write rt now level id fmt args w = some w1) :
    ∃ body, lineBuf rt fmt args = some body := by
  cases h : lineBuf rt fmt args with
  | none => simp [LogImpl.Write, h] at hW
  | some body => exact ⟨body, rfl⟩

/-- A writer without a file name leaves the files alone in `Write`. -/
theorem Write_files_of_empty {Args : Type} (rt : Runtime Args) (self : LogImpl)
    (now : String) (level : LogLevel) (id : Nat) (fmt : Option String) (args : Args)
    (w w1 : World) (hname : self.m_filename = "")
    (hW : self.Write rt now level id fmt args w = some w1) : w1.files = w.files := by
  obtain ⟨body, hbody⟩ := lineBuf_of_Write rt self now level id fmt args w w1 hW
  obtain ⟨w2, h2, hfiles, _, _⟩ := Write_some rt self now level id fmt args body w hbody
  rw [hW] at h2
  cases h2
  simpa [hname] using hfiles

/-- A writer without a file name leaves the files alone in every sequence of
calls. -/
theorem run_files_of_empty {Args : Type} (rt : Runtime Args) (self : LogImpl)
    (hname : self.m_filename = "") (calls : List (Call Args)) :
    ∀ w : World, (self.run rt calls w).files = w.files := by
  induction calls with
  | nil => intro w; rfl
  | cons call rest ih =>
    intro w
    cases call with
    | ReopenLogFile =>
      simp only [LogImpl.run, LogImpl.ReopenLogFile]
      exact ih w
    | Write now level id fmt args =>
      simp only [LogImpl.run]
      cases hW : self.Write rt now level id fmt args w with
      | none => rfl
      | some w1 =>
        simp only []
        rw [ih w1]
        exact Write_files_of_empty rt self now level id fmt args w w1 hname hW

/-! ## The device tag -/

/-- C2: for an 8-bit node id, `GetNodeString` returns the empty string for 0,
`"contrlr, "` for 255, and for every id from 1 to 254 the text `Node`, the id
in decimal zero-padded to exactly three digits, a comma and a blank; that text
is the whole expansion and fits the 20-byte buffer with its terminator. -/
theorem GetNodeString_spec (id : Nat) (hid : id < 256) :
    (id = 0 → GetNodeString id = "") ∧
    (id = 255 → GetNodeString id = "contrlr, ") ∧
    (1 ≤ id → id ≤ 254 →
      GetNodeString id = "Node" ++ zeroPad3 id ++ ", " ∧
      GetNodeString id = "Node" ++ fmt03d id ++ ", " ∧
      (zeroPad3 id).length = 3 ∧
      (GetNodeString id).length + 1 ≤ 20) := by
  refine ⟨?_, ?_, ?_⟩
  · intro h
    subst h
    rfl
  · intro h
    subst h
    rfl
  · intro h1 h2
    have hpad : fmt03d id = zeroPad3 id := fmt03d_eq_zeroPad3 id hid
    have h0 : id ≠ 0 := by omega
    have h255 : id ≠ 255 := by omega
    have hfull : GetNodeString id = "Node" ++ zeroPad3 id ++ ", " := by
      simp only [GetNodeString, h0, h255, if_false, hpad, vsnprintf]
      rfl
    refine ⟨hfull, ?_, rfl, ?_⟩
    · rw [hfull, hpad]
    · have hlen : ("Node" ++ zeroPad3 id ++ ", ").length = 9 := rfl
      rw [hfull, hlen]
      decide

/-- C2 at node 5: the tag is `"Node005, "`. -/
theorem GetNodeString_spec_witness :
    GetNodeString 5 = "Node" ++ zeroPad3 5 ++ ", " ∧
    GetNodeString 5 = "Node" ++ fmt03d 5 ++ ", " ∧
    (zeroPad3 5).length = 3 ∧
    (GetNodeString 5).length + 1 ≤ 20 :=
  (GetNodeString_spec 5 (by decide)).2.2 (by decide) (by decide)

/-! ## Console colours -/

/-- C6: `toEscapeCode` yields a value for every level, and for every level other
than Debug and Detail it is the one of the table: white for Info, amber for
Alert and Warning, red for Error, bright red for Fatal, green for Always, and
white for every value outside the enumeration; that white is the attribute a
`Write` that reaches the console leaves in force. -/
theorem toEscapeCode_table {Args : Type} (rt : Runtime Args) (self : LogImpl)
    (now : String) (level : LogLevel) (id : Nat) (fmt : Option String) (args : Args)
    (w w1 : World) :
    (∃ code, toEscapeCode level = code ∧ code < 16) ∧
    toEscapeCode LogLevel_Info = FOREGROUND_RED ||| FOREGROUND_GREEN ||| FOREGROUND_BLUE ∧
    toEscapeCode LogLevel_Alert = FOREGROUND_RED ||| FOREGROUND_GREEN ∧
    toEscapeCode LogLevel_Warning = FOREGROUND_RED ||| FOREGROUND_GREEN ∧
    toEscapeCode LogLevel_Error = FOREGROUND_RED ∧
    toEscapeCode LogLevel_Fatal = FOREGROUND_RED ||| FOREGROUND_INTENSITY ∧
    toEscapeCode LogLevel_Always = FOREGROUND_GREEN ∧
    (∀ raw, toEscapeCode (unrecognized raw) =
      FOREGROUND_RED ||| FOREGROUND_GREEN ||| FOREGROUND_BLUE) ∧
    (self.m_bConsoleOutput = true → self.m_filename ≠ "" →
      self.Write rt now level id fmt args w = some w1 →
      ∀ raw, w1.textAttribute = toEscapeCode (unrecognized raw)) := by
  refine ⟨⟨_, rfl, ?_⟩, rfl, rfl, rfl, rfl, rfl, rfl, fun _ => rfl, ?_⟩
  · cases level <;> simp only [toEscapeCode] <;> decide
  · intro hcon hname hW raw
    obtain ⟨body, hbody⟩ := lineBuf_of_Write rt self now level id fmt args w w1 hW
    obtain ⟨w2, h2, _, _, hattr⟩ := Write_some rt self now level id fmt args body w hbody
    rw [hW] at h2
    cases h2
    simpa [hcon, hname, toEscapeCode] using hattr

/-- C6 on a console line: the console starts in bright red, and after an Error
line the attribute in force is the one of an unrecognized level. -/
theorem toEscapeCode_table_witness :
    sampleWorld.textAttribute = 12 ∧
    ∃ w1, LogImpl.Write (sampleRuntime Toolchain.MSVC false)
        { m_filename := "log.txt", m_bConsoleOutput := true, m_bAppendLog := false }
        sampleTime LogLevel_Error 5 (some "timeout") [] sampleWorld = some w1 ∧
      w1.textAttribute = toEscapeCode (unrecognized 99) :=
  ⟨rfl, _, rfl,
    (toEscapeCode_table (sampleRuntime Toolchain.MSVC false)
      { m_filename := "log.txt", m_bConsoleOutput := true, m_bAppendLog := false }
      sampleTime LogLevel_Error 5 (some "timeout") [] sampleWorld _).2.2.2.2.2.2.2.2
      rfl (by decide) rfl 99⟩

/-- C7, what the code does: Debug and Detail get one and the same attribute,
and it has the blue bit, but it is bright white, all four foreground bits: the
red and the green bit are set as well, although the source marks both cases as
blue. It differs from the white of Info only by the intensity bit. -/
theorem toEscapeCode_Debug_Detail_bright_white :
    toEscapeCode LogLevel_Debug = toEscapeCode LogLevel_Detail ∧
    toEscapeCode LogLevel_Debug =
      FOREGROUND_RED ||| FOREGROUND_GREEN ||| FOREGROUND_BLUE ||| FOREGROUND_INTENSITY ∧
    toEscapeCode LogLevel_Debug &&& FOREGROUND_BLUE = FOREGROUND_BLUE ∧
    toEscapeCode LogLevel_Debug &&& FOREGROUND_RED = FOREGROUND_RED ∧
    toEscapeCode LogLevel_Debug &&& FOREGROUND_GREEN = FOREGROUND_GREEN ∧
    toEscapeCode LogLevel_Debug ≠ FOREGROUND_BLUE ∧
    toEscapeCode LogLevel_Debug =
      toEscapeCode LogLevel_Info ||| FOREGROUND_INTENSITY := by
  decide

/-! ## Writing a line -/

/-- C1, what the code does with a message of 1030 characters on a writer of
`log.txt`, a file that can be opened and holds `old`: without `MINGW` and under
the default handler the process ends inside `vsprintf_s`, `Write` does not
complete and the file still holds `old` alone; with `MINGW` the same call
appends the line, its body cut to 1023 characters. -/
theorem Write_overflow_not_appended :
    (sampleRuntime Toolchain.MSVC false).fopenErrno "log.txt" = 0 ∧
    LogImpl.Write (sampleRuntime Toolchain.MSVC false)
      { m_filename := "log.txt", m_bConsoleOutput := false, m_bAppendLog := false }
      sampleTime LogLevel_Error 5 (some longTemplate) [] usedWorld = none ∧
    (LogImpl.run (sampleRuntime Toolchain.MSVC false)
      { m_filename := "log.txt", m_bConsoleOutput := false, m_bAppendLog := false }
      [Call.Write sampleTime LogLevel_Error 5 (some longTemplate) []]
      usedWorld).files "log.txt" = some "old\n" ∧
    ∃ w1, LogImpl.Write (sampleRuntime Toolchain.MINGW false)
        { m_filename := "log.txt", m_bConsoleOutput := false, m_bAppendLog := false }
        sampleTime LogLevel_Error 5 (some longTemplate) [] usedWorld = some w1 ∧
      w1.files "log.txt" =
        some ("old\n" ++ ("2010-06-01 12:00:00.000 " ++ "Error, " ++ "Node005, " ++
          String.mk ((expandPlain longTemplate []).data.take 1023) ++ "\n")) := by
  have hnone : LogImpl.Write (sampleRuntime Toolchain.MSVC false)
      { m_filename := "log.txt", m_bConsoleOutput := false, m_bAppendLog := false }
      sampleTime LogLevel_Error 5 (some longTemplate) [] usedWorld = none := by
    simp [LogImpl.Write, lineBuf_long_MSVC_default]
  refine ⟨rfl, hnone, ?_, ?_⟩
  · simp only [LogImpl.run, hnone]
    rfl
  · obtain ⟨w1, h1, hfiles1, _, _⟩ :=
      Write_some (sampleRuntime Toolchain.MINGW false)
        { m_filename := "log.txt", m_bConsoleOutput := false, m_bAppendLog := false }
        sampleTime LogLevel_Error 5 (some longTemplate) []
        ⟨(expandPlain longTemplate []).data.take 1023⟩ usedWorld lineBuf_long_MINGW
    refine ⟨w1, h1, ?_⟩
    rw [hfiles1]
    rfl

/-- C5, what the code does for a writer with console output and an empty file
name: as the braces of `Write` pair, the console block lies inside the
file-name guard, so `Write(LogLevel_Info, 255, "", [])` completes without any
call on the console and the attribute stays as it was; the same call on a
writer of `log.txt` prints the line between the two attribute calls. -/
theorem Write_console_skipped_without_file :
    (∃ w1, LogImpl.Write (sampleRuntime Toolchain.MINGW false)
        { m_filename := "", m_bConsoleOutput := true, m_bAppendLog := false }
        sampleTime LogLevel_Info 255 (some "") [] sampleWorld = some w1 ∧
      w1.console = [] ∧ w1.textAttribute = 12) ∧
    (∃ w2, LogImpl.Write (sampleRuntime Toolchain.MINGW false)
        { m_filename := "log.txt", m_bConsoleOutput := true, m_bAppendLog := false }
        sampleTime LogLevel_Info 255 (some "") [] sampleWorld = some w2 ∧
      w2.console =
        [ConsoleCall.SetConsoleTextAttribute 7,
         ConsoleCall.printf "2010-06-01 12:00:00.000 Info, contrlr, \n",
         ConsoleCall.SetConsoleTextAttribute 7] ∧
      w2.textAttribute = 7) :=
  ⟨⟨_, rfl, rfl, rfl⟩, ⟨_, rfl, rfl, rfl⟩⟩

/-- C8: every `Write` that makes a call on the console makes exactly three, in
this order: the attribute of the level is set, the line is printed, the
attribute is set to white; the attribute in force afterwards is white, and the
text printed is the text appended to the file when the file can be opened. A
`Write` with console output, a non-empty file name and a message body is such a
`Write`. -/
theorem Write_console_sequence {Args : Type} (rt : Runtime Args) (self : LogImpl)
    (now : String) (level : LogLevel) (id : Nat) (fmt : Option String) (args : Args)
    (w : World) :
    (∀ w1, self.Write rt now level id fmt args w = some w1 → w1.console ≠ w.console →
      ∃ body, lineBuf rt fmt args = some body ∧
        w1.console = w.console ++
          [ConsoleCall.SetConsoleTextAttribute (toEscapeCode level),
           ConsoleCall.printf
             (now ++ rt.GetLogLevelString level ++ GetNodeString id ++ body ++ "\n"),
           ConsoleCall.SetConsoleTextAttribute
             (FOREGROUND_RED ||| FOREGROUND_GREEN ||| FOREGROUND_BLUE)] ∧
        w1.textAttribute = FOREGROUND_RED ||| FOREGROUND_GREEN ||| FOREGROUND_BLUE ∧
        (rt.fopenErrno self.m_filename = 0 →
          w1.files self.m_filename =
            some (content w.files self.m_filename ++
              (now ++ rt.GetLogLevelString level ++ GetNodeString id ++ body ++ "\n")))) ∧
    (∀ body, self.m_bConsoleOutput = true → self.m_filename ≠ "" →
      lineBuf rt fmt args = some body →
      ∃ w1, self.Write rt now level id fmt args w = some w1 ∧
        w1.console = w.console ++
          [ConsoleCall.SetConsoleTextAttribute (toEscapeCode level),
           ConsoleCall.printf
             (now ++ rt.GetLogLevelString level ++ GetNodeString id ++ body ++ "\n"),
           ConsoleCall.SetConsoleTextAttribute
             (FOREGROUND_RED ||| FOREGROUND_GREEN ||| FOREGROUND_BLUE)] ∧
        w1.textAttribute = FOREGROUND_RED ||| FOREGROUND_GREEN ||| FOREGROUND_BLUE ∧
        (rt.fopenErrno self.m_filename = 0 →
          w1.files self.m_filename =
            some (content w.files self.m_filename ++
              (now ++ rt.GetLogLevelString level ++ GetNodeString id ++ body ++ "\n")))) := by
  have key : ∀ body, lineBuf rt fmt args = some body →
      self.m_filename ≠ "" ∧ self.m_bConsoleOutput = true →
      ∀ w1, self.Write rt now level id fmt args w = some w1 →
        w1.console = w.console ++
          [ConsoleCall.SetConsoleTextAttribute (toEscapeCode level),
           ConsoleCall.printf
             (now ++ rt.GetLogLevelString level ++ GetNodeString id ++ body ++ "\n"),
           ConsoleCall.SetConsoleTextAttribute
             (FOREGROUND_RED ||| FOREGROUND_GREEN ||| FOREGROUND_BLUE)] ∧
        w1.textAttribute = FOREGROUND_RED ||| FOREGROUND_GREEN ||| FOREGROUND_BLUE ∧
        (rt.fopenErrno self.m_filename = 0 →
          w1.files self.m_filename =
            some (content w.files self.m_filename ++
              (now ++ rt.GetLogLevelString level ++ GetNodeString id ++ body ++ "\n"))) := by
    intro body hbody hcond w1 hW
    obtain ⟨w2, h2, hfiles, hconsole, hattr⟩ :=
      Write_some rt self now level id fmt args body w hbody
    rw [hW] at h2
    cases h2
    refine ⟨?_, ?_, ?_⟩
    · rw [hconsole, if_pos hcond]
    · rw [hattr, if_pos hcond]
    · intro hopen
      rw [hfiles, if_pos ⟨hcond.1, hopen⟩]
      simp
  refine ⟨?_, ?_⟩
  · intro w1 hW hne
    obtain ⟨body, hbody⟩ := lineBuf_of_Write rt self now level id fmt args w w1 hW
    obtain ⟨w2, h2, _, hconsole, _⟩ :=
      Write_some rt self now level id fmt args body w hbody
    rw [hW] at h2
    cases h2
    by_cases hcond : self.m_filename ≠ "" ∧ self.m_bConsoleOutput = true
    · exact ⟨body, hbody, key body hbody hcond w1 hW⟩
    · rw [hconsole, if_neg hcond] at hne
      exact absurd rfl hne
  · intro body hcon hname hbody
    obtain ⟨w1, h1, _⟩ := Write_some rt self now level id fmt args body w hbody
    exact ⟨w1, h1, key body hbody ⟨hname, hcon⟩ w1 h1⟩

/-- C8 on the scenario of the specification: the console starts in bright red,
the Error line for node 5 is shown in red, then the console is white, and the
file gains the same text. -/
theorem Write_console_sequence_witness :
    sampleWorld.textAttribute = 12 ∧
    ∃ w1,
      LogImpl.Write (sampleRuntime Toolchain.MINGW false)
        { m_filename := "log.txt", m_bConsoleOutput := true, m_bAppendLog := false }
        sampleTime LogLevel_Error 5 (some "timeout") [] sampleWorld = some w1 ∧
      w1.console =
        [ConsoleCall.SetConsoleTextAttribute FOREGROUND_RED,
         ConsoleCall.printf "2010-06-01 12:00:00.000 Error, Node005, timeout\n",
         ConsoleCall.SetConsoleTextAttribute 7] ∧
      w1.textAttribute = 7 ∧
      w1.files "log.txt" = some "2010-06-01 12:00:00.000 Error, Node005, timeout\n" := by
  obtain ⟨w1, h1, hconsole, hattr, hfile⟩ :=
    (Write_console_sequence (sampleRuntime Toolchain.MINGW false)
      { m_filename := "log.txt", m_bConsoleOutput := true, m_bAppendLog := false }
      sampleTime LogLevel_Error 5 (some "timeout") [] sampleWorld).2
      "timeout" rfl (by decide) rfl
  exact ⟨rfl, w1, h1, hconsole, hattr, hfile rfl⟩

/-! ## Construction and reconfiguration -/

/-- C3: for a non-empty path whose file can be opened, constructing the writer
with `appendMode = false` leaves the file containing exactly the banner, a
newline, `Logging started `, the time stamp and two newlines, whatever the file
held before; with `appendMode = true` a file that held `c` holds `c` followed
by the banner. The writer stores the three arguments. -/
theorem LogImpl_new_banner {Args : Type} (rt : Runtime Args) (timeStr path c : String)
    (console : Bool) (w : World)
    (hname : path ≠ "") (hopen : rt.fopenErrno path = 0) (hprior : w.files path = some c) :
    (LogImpl.new rt timeStr path false console w).2.files path =
      some ("\nLogging started " ++ timeStr ++ "\n\n") ∧
    (LogImpl.new rt timeStr path true console w).2.files path =
      some (c ++ ("\nLogging started " ++ timeStr ++ "\n\n")) ∧
    (∀ append, (LogImpl.new rt timeStr path append console w).1 =
      { m_filename := path, m_bConsoleOutput := console, m_bAppendLog := append }) := by
  refine ⟨?_, ?_, ?_⟩
  · simp [LogImpl.new, hname, hopen, fopen_s, fopen, fprintf, fclose, content]
  · simp [LogImpl.new, hname, hopen, fopen_s, fopen, fprintf, fclose, content, hprior]
  · intro append
    simp only [LogImpl.new, ne_eq, hname, not_false_eq_true, if_true]
    split <;> rfl

/-- C3 on a directory that holds `log.txt` with the text `old`: truncation
leaves the banner alone, appending keeps `old` in front of it. -/
theorem LogImpl_new_banner_witness :
    (LogImpl.new (sampleRuntime Toolchain.MSVC false) sampleTime "log.txt" false true
        usedWorld).2.files "log.txt" =
      some "\nLogging started 2010-06-01 12:00:00.000 \n\n" ∧
    (LogImpl.new (sampleRuntime Toolchain.MSVC false) sampleTime "log.txt" true true
        usedWorld).2.files "log.txt" =
      some "old\n\nLogging started 2010-06-01 12:00:00.000 \n\n" :=
  ⟨(LogImpl_new_banner (sampleRuntime Toolchain.MSVC false) sampleTime "log.txt" "old\n"
      true usedWorld (by decide) rfl rfl).1,
   (LogImpl_new_banner (sampleRuntime Toolchain.MSVC false) sampleTime "log.txt" "old\n"
      true usedWorld (by decide) rfl rfl).2.1⟩

/-- C4: a writer constructed with an empty path keeps the empty file name, its
construction leaves the file system as it was, and so does every sequence of
`Write` and `ReopenLogFile` calls that follows: no file is created, emptied or
appended to. -/
theorem empty_path_no_file_io {Args : Type} (rt : Runtime Args) (timeStr : String)
    (append console : Bool) (w : World) (calls : List (Call Args)) :
    (LogImpl.new rt timeStr "" append console w).1.m_filename = "" ∧
    (LogImpl.new rt timeStr "" append console w).2.files = w.files ∧
    ((LogImpl.new rt timeStr "" append console w).1.run rt calls
      (LogImpl.new rt timeStr "" append console w).2).files = w.files := by
  have hnew : LogImpl.new rt timeStr "" append console w =
      ({ m_filename := "", m_bConsoleOutput := console, m_bAppendLog := append }, w) := by
    simp [LogImpl.new]
  rw [hnew]
  exact ⟨rfl, rfl, run_files_of_empty rt _ rfl calls w⟩

/-- C10: `SetLogFileName p` yields a writer whose file name is `p` and whose
console and append flags are the old ones, and leaves files and console as they
were; a `Write` that follows changes no file other than `p`, and appends its
line to `p` when `p` is non-empty and can be opened. -/
theorem SetLogFileName_frame {Args : Type} (rt : Runtime Args) (self : LogImpl)
    (p : String) (w : World) (now : String) (level : LogLevel) (id : Nat)
    (fmt : Option String) (args : Args) (body : String) :
    (self.SetLogFileName p w).1.m_filename = p ∧
    (self.SetLogFileName p w).1.m_bConsoleOutput = self.m_bConsoleOutput ∧
    (self.SetLogFileName p w).1.m_bAppendLog = self.m_bAppendLog ∧
    (self.SetLogFileName p w).2 = w ∧
    (lineBuf rt fmt args = some body →
      ∃ w1, (self.SetLogFileName p w).1.Write rt now level id fmt args
          (self.SetLogFileName p w).2 = some w1 ∧
        (∀ q, q ≠ p → w1.files q = w.files q) ∧
        (p ≠ "" → rt.fopenErrno p = 0 →
          w1.files p = some (content w.files p ++
            (now ++ rt.GetLogLevelString level ++ GetNodeString id ++ body ++ "\n")))) := by
  refine ⟨rfl, rfl, rfl, rfl, ?_⟩
  intro hbody
  obtain ⟨w1, h1, hfiles1, _, _⟩ :=
    Write_some rt (self.SetLogFileName p w).1 now level id fmt args body w hbody
  refine ⟨w1, h1, ?_, ?_⟩
  · intro q hq
    have hq2 : q ≠ (self.SetLogFileName p w).1.m_filename := hq
    rw [hfiles1]
    split
    · simp [hq2]
    · rfl
  · intro hname hopen
    have hname2 : (self.SetLogFileName p w).1.m_filename ≠ "" := hname
    have hopen2 : rt.fopenErrno (self.SetLogFileName p w).1.m_filename = 0 := hopen
    rw [hfiles1]
    simp only [hname2, hopen2, ne_eq, not_false_eq_true, and_self, if_true]
    simp [LogImpl.SetLogFileName]

/-- C10 on a writer of `log.txt` renamed to `new.txt`: the next line goes to
`new.txt` and `log.txt` keeps its content. -/
theorem SetLogFileName_frame_witness :
    ∃ w1,
      LogImpl.Write (sampleRuntime Toolchain.MSVC false)
        { m_filename := "new.txt", m_bConsoleOutput := false, m_bAppendLog := true }
        sampleTime LogLevel_Info 0 (some "moved") [] usedWorld = some w1 ∧
      w1.files "log.txt" = some "old\n" ∧
      w1.files "new.txt" = some "2010-06-01 12:00:00.000 Info, moved\n" := by
  obtain ⟨w1, h1, hother, hfile⟩ :=
    (SetLogFileName_frame (sampleRuntime Toolchain.MSVC false)
      { m_filename := "log.txt", m_bConsoleOutput := false, m_bAppendLog := true }
      "new.txt" usedWorld sampleTime LogLevel_Info 0 (some "moved") [] "moved").2.2.2.2 rfl
  exact ⟨w1, h1, hother "log.txt" (by decide), hfile (by decide) rfl⟩

/-! ## The bounded message body -/

/-- C9, what the code does when `MINGW` is not defined: with the runtime
function `vsprintf_s`, a template whose expansion has 1030 characters does not
give the first 1023 characters as body. Under the default handler the process
ends in the formatting call and `Write` writes nothing; under a handler that
returns the body is empty. -/
theorem lineBuf_MSVC_overflow :
    1024 ≤ ((sampleRuntime Toolchain.MSVC false).expand longTemplate []).length ∧
    lineBuf (sampleRuntime Toolchain.MSVC false) (some longTemplate) [] = none ∧
    LogImpl.Write (sampleRuntime Toolchain.MSVC false)
      { m_filename := "log.txt", m_bConsoleOutput := true, m_bAppendLog := false }
      sampleTime LogLevel_Error 5 (some longTemplate) [] sampleWorld = none ∧
    lineBuf (sampleRuntime Toolchain.MSVC true) (some longTemplate) [] = some "" ∧
    lineBuf (sampleRuntime Toolchain.MSVC true) (some longTemplate) [] ≠
      some ⟨((sampleRuntime Toolchain.MSVC true).expand longTemplate []).data.take 1023⟩ ∧
    lineBuf (sampleRuntime Toolchain.MINGW false) (some longTemplate) [] =
      some ⟨((sampleRuntime Toolchain.MINGW false).expand longTemplate []).data.take 1023⟩ := by
  have hlen : (expandPlain longTemplate []).length = 1030 := longTemplate_length
  refine ⟨?_, lineBuf_long_MSVC_default, ?_, lineBuf_long_MSVC_returning, ?_,
    lineBuf_long_MINGW⟩
  · show 1024 ≤ (expandPlain longTemplate []).length
    omega
  · simp [LogImpl.Write, lineBuf_long_MSVC_default]
  · rw [lineBuf_long_MSVC_returning]
    intro h
    have hlen2 : ("" : String).length =
        (String.mk ((expandPlain longTemplate []).data.take 1023)).length :=
      congrArg String.length (Option.some.inj h)
    have hdata : (expandPlain longTemplate []).data.length = 1030 := hlen
    simp only [String.length, List.length_take, hdata] at hlen2
    exact absurd hlen2 (by decide)

end OpenZWave.Internal.Platform
